import Mathlib

/-
  A formal model of the indexing-and-retrieval core of the Vasp-Wiki-Agent
  repository: backend/rag/chunker.py, backend/rag/embeddings.py and
  backend/rag/vector_store.py.

  Modelling conventions:
  * Token counts are modelled additively: a sentence is represented by its
    token count (a natural number), a paragraph by its list of sentences,
    a section by its list of paragraphs.  count_tokens of a piece of text is
    the sum of the token counts of its sentences (separator whitespace is
    abstracted as zero tokens).
  * numpy arrays of embeddings are lists of rational-valued vectors; float
    arithmetic is modelled by exact rational arithmetic.
  * A raised Python exception is modelled by an error field returned to the
    caller together with the post-call object state.
  * In-place mutation of a caller-supplied numpy array (faiss.normalize_L2)
    is modelled by returning the array contents as they are after the call.
  * The on-disk artifacts (index.faiss / metadata.json) are modelled as
    structured optional values; artifact files are taken to be well-formed
    (parse failures of corrupt files are below this model).
-/

/-! ## Chunker (backend/rag/chunker.py) -/

/-- Chunker configuration: chunk_size, chunk_overlap, min_chunk_size, all in
tokens, as in TextChunker.__init__. -/
structure Cfg where
  chunk_size : Nat
  chunk_overlap : Nat
  min_chunk_size : Nat
deriving DecidableEq

/-- The chunk_type metadata values: section, paragraph, sentence, fixed_size. -/
inductive ChunkType where
  | sectionChunk
  | paragraphChunk
  | sentenceChunk
  | fixedSizeChunk
deriving DecidableEq

/-- A produced chunk: its recorded token count, chunk_type and heading
metadata.  (source_title and source_url are copied verbatim from the document
and do not interact with any chunking decision, so they are omitted.) -/
structure Chunk where
  tokens : Nat
  ctype : ChunkType
  heading : Option String
deriving DecidableEq

/-- A document section: heading plus content, the content given as its
blank-line-separated paragraphs, each paragraph as its sentence token
counts. -/
structure DocSection where
  heading : String
  content : List (List Nat)
deriving DecidableEq

/-- A document: either structured sections, or plain text given as its
sentence token counts (chunk_document picks the strategy from sections). -/
structure Document where
  sections : List DocSection
  plain : List Nat
deriving DecidableEq

/-- count_tokens of one paragraph. -/
def paraTokens (p : List Nat) : Nat := p.sum

/-- count_tokens of a section's content. -/
def sectionTokens (content : List (List Nat)) : Nat := (content.map paraTokens).sum

/-- Python truthiness of the current_heading variable: None and the empty
string are falsy. -/
def isFalsy : Option String → Bool
  | none => true
  | some s => s == ""

/-- The overlap accumulation loop of split_by_size: walk the flushed buffer's
sentences in reverse, prepending as many trailing sentences as fit within
chunk_overlap tokens (ovTok is the running overlap_tokens). -/
def overlapGo (cfg : Cfg) : List Nat → List Nat → Nat → List Nat
  | [], acc, _ => acc
  | t :: rest, acc, ovTok =>
    if ovTok + t ≤ cfg.chunk_overlap then overlapGo cfg rest (t :: acc) (ovTok + t) else acc

/-- The overlap sentences seeded from a flushed buffer in split_by_size. -/
def overlapOf (cfg : Cfg) (cur : List Nat) : List Nat := overlapGo cfg cur.reverse [] 0

/-- The sentence loop of TextChunker.split_by_size: cur is the list of token
counts of the sentences accumulated in current_chunk, curTok the running
current_tokens.  A flush records count_tokens of the joined text, which in the
additive token model is cur.sum. -/
def sbsGo (cfg : Cfg) : List Nat → List Nat → Nat → List Chunk
  | [], cur, _ =>
    if cur ≠ [] ∧ cfg.min_chunk_size ≤ cur.sum then
      [⟨cur.sum, ChunkType.fixedSizeChunk, none⟩]
    else []
  | s :: rest, cur, curTok =>
    if cfg.chunk_size < curTok + s ∧ cur ≠ [] then
      (if cfg.min_chunk_size ≤ cur.sum then [⟨cur.sum, ChunkType.fixedSizeChunk, none⟩] else []) ++
        sbsGo cfg rest (overlapOf cfg cur ++ [s]) ((overlapOf cfg cur).sum + s)
    else
      sbsGo cfg rest (cur ++ [s]) (curTok + s)

/-- TextChunker.split_by_size: fixed-size sentence packing with suffix
overlap (the no-text early return yields no chunks). -/
def split_by_size (cfg : Cfg) (doc : Document) : List Chunk :=
  if doc.plain = [] then [] else sbsGo cfg doc.plain [] 0

/-- The inner sentence loop of TextChunker._split_large_section, entered when
a single paragraph exceeds chunk_size.  It shares current_chunk / current_tokens
with the surrounding paragraph loop (the code does not reset them first) and
returns the leftover buffer to it. -/
def sentLoop (cfg : Cfg) (heading : String) : List Nat → List Nat → Nat → List Chunk × List Nat × Nat
  | [], cur, curTok => ([], cur, curTok)
  | s :: rest, cur, curTok =>
    if curTok + s ≤ cfg.chunk_size then sentLoop cfg heading rest (cur ++ [s]) (curTok + s)
    else
      let flushed :=
        if cur ≠ [] ∧ cfg.min_chunk_size ≤ curTok then
          [⟨curTok, ChunkType.sentenceChunk, some heading⟩]
        else []
      let r := sentLoop cfg heading rest [s] s
      (flushed ++ r.1, r.2)

/-- The paragraph loop of TextChunker._split_large_section.  cur holds the
token counts of the pieces (paragraphs or sentences) accumulated in
current_chunk; curTok is current_tokens. -/
def slsGo (cfg : Cfg) (heading : String) : List (List Nat) → List Nat → Nat → List Chunk
  | [], cur, curTok =>
    if cur ≠ [] ∧ cfg.min_chunk_size ≤ curTok then
      [⟨curTok, ChunkType.paragraphChunk, some heading⟩]
    else []
  | p :: rest, cur, curTok =>
    if curTok + paraTokens p ≤ cfg.chunk_size then
      slsGo cfg heading rest (cur ++ [paraTokens p]) (curTok + paraTokens p)
    else
      let flushed :=
        if cur ≠ [] ∧ cfg.min_chunk_size ≤ curTok then
          [⟨curTok, ChunkType.paragraphChunk, some heading⟩]
        else []
      if cfg.chunk_size < paraTokens p then
        let r := sentLoop cfg heading p cur curTok
        flushed ++ r.1 ++ slsGo cfg heading rest r.2.1 r.2.2
      else
        flushed ++ slsGo cfg heading rest [paraTokens p] (paraTokens p)

/-- TextChunker._split_large_section: split an oversized section by
paragraphs, recursing into sentences for oversized paragraphs. -/
def split_large_section (cfg : Cfg) (content : List (List Nat)) (heading : String) : List Chunk :=
  slsGo cfg heading content [] 0

/-- The section loop of TextChunker.split_by_sections.  cur holds the contents
accumulated in current_chunk (only its emptiness matters to control flow),
curTok is current_tokens, curHead is current_heading. -/
def sectionsGo (cfg : Cfg) :
    List DocSection → List (List (List Nat)) → Nat → Option String → List Chunk
  | [], cur, curTok, curHead =>
    if cur ≠ [] ∧ cfg.min_chunk_size ≤ curTok then
      [⟨curTok, ChunkType.sectionChunk, curHead⟩]
    else []
  | sec :: rest, cur, curTok, curHead =>
    if curTok + sectionTokens sec.content ≤ cfg.chunk_size then
      sectionsGo cfg rest (cur ++ [sec.content]) (curTok + sectionTokens sec.content)
        (if isFalsy curHead then some sec.heading else curHead)
    else
      (if cur ≠ [] ∧ cfg.min_chunk_size ≤ curTok then
        [⟨curTok, ChunkType.sectionChunk, curHead⟩]
      else []) ++
      (if cfg.chunk_size < sectionTokens sec.content then
        split_large_section cfg sec.content sec.heading ++ sectionsGo cfg rest [] 0 none
      else
        sectionsGo cfg rest [sec.content] (sectionTokens sec.content) (some sec.heading))

/-- TextChunker.split_by_sections. -/
def split_by_sections (cfg : Cfg) (doc : Document) : List Chunk :=
  if doc.sections = [] then split_by_size cfg doc else sectionsGo cfg doc.sections [] 0 none

/-- TextChunker.chunk_document: semantic chunking when the document has
sections, size-based chunking otherwise. -/
def chunk_document (cfg : Cfg) (doc : Document) : List Chunk :=
  if doc.sections ≠ [] then split_by_sections cfg doc else split_by_size cfg doc

/-- count_tokens of the whole document, in the additive token model. -/
def docTokens (doc : Document) : Nat :=
  if doc.sections ≠ [] then (doc.sections.map (fun s => sectionTokens s.content)).sum
  else doc.plain.sum

/-- Sum of the recorded token_count over a list of chunks. -/
def sumChunkTokens (cs : List Chunk) : Nat := (cs.map Chunk.tokens).sum

/-! ## Embedding vectors -/

/-- An embedding vector: float components modelled as exact rationals. -/
abbrev Vec := List ℚ

/-! ## EmbeddingGenerator (backend/rag/embeddings.py) -/

/-- Outcome of one call to the remote embedding API (genai.embed_content):
a usable embedding, a quota/rate-limit error (429 / quota / rate limit in the
message), or any other failure (other exceptions, AttributeError paths,
unexpected response formats). -/
inductive Outcome where
  | ok
  | quota
  | err
deriving DecidableEq

/-- The mutable state of an EmbeddingGenerator instance.  apiCalls counts the
remote API invocations actually performed, so that re-attempts of the remote
provider are observable. -/
structure EmbState where
  use_gemini : Bool
  has_client : Bool
  gemini_quota_exceeded : Bool
  apiCalls : Nat
deriving DecidableEq

/-- EmbeddingGenerator._get_gemini_embedding.  The remote API is modelled by
an oracle giving the outcome of the n-th remote call and by remoteEmb giving
the embedding returned for a text on success.  On a quota failure the code
sets gemini_quota_exceeded and clears use_gemini. -/
def get_gemini_embedding (oracle : Nat → Outcome) (remoteEmb : Nat → Vec)
    (s : EmbState) (t : Nat) : Option Vec × EmbState :=
  if s.gemini_quota_exceeded then (none, s)
  else
    match oracle s.apiCalls with
    | Outcome.ok => (some (remoteEmb t), ⟨s.use_gemini, s.has_client, s.gemini_quota_exceeded, s.apiCalls + 1⟩)
    | Outcome.quota => (none, ⟨false, s.has_client, true, s.apiCalls + 1⟩)
    | Outcome.err => (none, ⟨s.use_gemini, s.has_client, s.gemini_quota_exceeded, s.apiCalls + 1⟩)

/-- EmbeddingGenerator.embed_text: try the remote provider when enabled,
fall back to the local model (localEmb) otherwise. -/
def embed_text (oracle : Nat → Outcome) (remoteEmb localEmb : Nat → Vec)
    (s : EmbState) (t : Nat) : Vec × EmbState :=
  if s.use_gemini && s.has_client then
    match get_gemini_embedding oracle remoteEmb s t with
    | (some v, s2) => (v, s2)
    | (none, s2) => (localEmb t, s2)
  else (localEmb t, s)

/-- The per-text loop of EmbeddingGenerator.embed_batch while the remote
provider is preferred.  fails is the local consecutive_failures counter
(max_failures is 3); when the quota flag is set or three consecutive failures
occur, the remaining texts are encoded by the local model as one batch and
the loop breaks. -/
def embed_batch_go (oracle : Nat → Outcome) (remoteEmb localEmb : Nat → Vec) :
    EmbState → List Nat → Nat → List Vec × EmbState
  | s, [], _ => ([], s)
  | s, t :: rest, fails =>
    let g := get_gemini_embedding oracle remoteEmb s t
    match g.1 with
    | some v =>
      let r := embed_batch_go oracle remoteEmb localEmb g.2 rest 0
      (v :: r.1, r.2)
    | none =>
      if g.2.gemini_quota_exceeded = true ∨ 3 ≤ fails + 1 then
        (localEmb t :: rest.map localEmb, g.2)
      else
        let r := embed_batch_go oracle remoteEmb localEmb g.2 rest (fails + 1)
        (localEmb t :: r.1, r.2)

/-- EmbeddingGenerator.embed_batch.  The batch_size argument only tunes the
local model's internal batching and has no observable effect, so it is not
modelled. -/
def embed_batch (oracle : Nat → Outcome) (remoteEmb localEmb : Nat → Vec)
    (s : EmbState) (ts : List Nat) : List Vec × EmbState :=
  if ts = [] then ([], s)
  else if s.use_gemini && s.has_client && !s.gemini_quota_exceeded then
    embed_batch_go oracle remoteEmb localEmb s ts 0
  else (ts.map localEmb, s)

/-! ## FAISSVectorStore (backend/rag/vector_store.py) -/

/-- Dot product of two vectors. -/
def dot (u v : Vec) : ℚ := (List.zipWith (fun a b => a * b) u v).sum

/-- Squared L2 distance, as returned by faiss.IndexFlatL2.search. -/
def sqDist (u v : Vec) : ℚ := ((List.zipWith (fun a b => a - b) u v).map (fun a => a * a)).sum

/-- Exact rational square root, when one exists. -/
def ratSqrt (q : ℚ) : Option ℚ :=
  if q < 0 then none
  else if Nat.sqrt q.num.toNat * Nat.sqrt q.num.toNat = q.num.toNat ∧
      Nat.sqrt q.den * Nat.sqrt q.den = q.den then
    some ((Nat.sqrt q.num.toNat : ℚ) / (Nat.sqrt q.den : ℚ))
  else none

/-- faiss.normalize_L2: divide each vector by its L2 norm (faiss skips
vectors of norm 0).  Exact whenever the squared norm has a rational square
root — in particular on already-normalized vectors and on the concrete
vectors used below; on other vectors exact normalization leaves ℚ and the
model keeps the vector unchanged. -/
def normalize_L2 (v : Vec) : Vec :=
  match ratSqrt (dot v v) with
  | some r => if r = 0 then v else v.map (fun a => a / r)
  | none => v

/-- FLT_MAX, the distance value faiss reports for padding entries when fewer
than k neighbors exist. -/
def fltMax : ℚ := ((2 ^ 24 - 1) * 2 ^ 104 : ℚ)

/-- Ordered insertion for exact nearest-neighbor ranking: ascending by
distance, ties by insertion index. -/
def insertByDist (p : ℚ × Int) : List (ℚ × Int) → List (ℚ × Int)
  | [] => [p]
  | c :: rest =>
    if p.1 < c.1 ∨ (p.1 = c.1 ∧ p.2 ≤ c.2) then p :: c :: rest else c :: insertByDist p rest

/-- faiss.IndexFlatL2.search for one query: the k nearest stored vectors by
squared L2 distance, padded with (FLT_MAX, -1) entries when k exceeds the
number of stored vectors. -/
def faiss_knn (vs : List Vec) (query : Vec) (k : Nat) : List (ℚ × Int) :=
  let scored := vs.enum.map (fun p => (sqDist p.2 query, (p.1 : Int)))
  let sorted := scored.foldr insertByDist []
  let top := sorted.take k
  top ++ List.replicate (k - top.length) (fltMax, -1)

/-- Python list indexing as used by self.metadata[int(idx)]: negative indices
count from the end. -/
def pyGet (l : List Nat) (i : Int) : Option Nat :=
  if 0 ≤ i then l.get? i.toNat else l.get? (l.length - (-i).toNat)

/-- The in-memory state of a FAISSVectorStore: the optional faiss index
(its dimension and stored vectors), the metadata list (records stand for
their ids), and the separately tracked dimension field. -/
structure StoreState where
  index : Option (Nat × List Vec)
  metadata : List Nat
  dimension : Option Nat
deriving DecidableEq

/-- The two on-disk artifacts under the index path. -/
structure Disk where
  indexFile : Option (Nat × List Vec)
  metadataFile : Option (List Nat)
deriving DecidableEq

/-- FAISSVectorStore._load_index as run by __init__: load index and metadata
when both artifact files exist, otherwise start with an empty store. -/
def load_index (disk : Disk) : StoreState :=
  match disk.indexFile, disk.metadataFile with
  | some (d, vs), some md => ⟨some (d, vs), md, some d⟩
  | _, _ => ⟨none, [], none⟩

/-- Result of an add_documents call: the post-call store state, the raised
error if any, and the contents of the caller's embeddings array after the
call (faiss.normalize_L2 mutates it in place). -/
structure AddResult where
  state : StoreState
  error : Option String
  arr : List Vec
deriving DecidableEq

/-- FAISSVectorStore.add_documents.  The length check precedes everything;
the empty check precedes normalization; normalization precedes the
create/dimension-mismatch branch, so a mismatching call has already mutated
the caller's array. -/
def add_documents (s : StoreState) (embeddings : List Vec) (documents : List Nat) : AddResult :=
  if embeddings.length ≠ documents.length then
    ⟨s, some "Number of embeddings must match number of documents", embeddings⟩
  else if embeddings.length = 0 then ⟨s, none, embeddings⟩
  else
    let dimension := (embeddings.headD []).length
    let normed := embeddings.map normalize_L2
    match s.index with
    | none =>
      ⟨⟨some (dimension, normed), s.metadata ++ documents, some dimension⟩, none, normed⟩
    | some (d, vs) =>
      if s.dimension ≠ some dimension then ⟨s, some "Embedding dimension mismatch", normed⟩
      else ⟨⟨some (d, vs ++ normed), s.metadata ++ documents, s.dimension⟩, none, normed⟩

/-- FAISSVectorStore.search.  Returns the (metadata, similarity) pairs and
the contents of the caller's query array after the call.  The top_k argument
falls back to the configured default when falsy (0); the result loop keeps an
entry whenever idx < len(metadata) — faiss padding entries have idx = -1 and
Python indexing then reads metadata[-1], the last record. -/
def search (defaultK : Nat) (s : StoreState) (query : Vec) (k : Nat) :
    List (Nat × ℚ) × Vec :=
  if s.index = none ∨ s.metadata = [] then ([], query)
  else
    let top_k := if k = 0 then defaultK else k
    let qn := normalize_L2 query
    let vs := match s.index with | some p => p.2 | none => []
    let raw := faiss_knn vs qn top_k
    let results := raw.filterMap (fun p =>
      if p.2 < (s.metadata.length : Int) then
        (pyGet s.metadata p.2).map (fun m => (m, 1 - p.1 / 2))
      else none)
    (results, qn)

/-- FAISSVectorStore.save_index: a no-op when there is no index, otherwise
write both artifacts from the in-memory state. -/
def save_index (s : StoreState) (disk : Disk) : StoreState × Disk :=
  match s.index with
  | none => (s, disk)
  | some idx => (s, ⟨some idx, some s.metadata⟩)

/-- FAISSVectorStore.get_stats: num_documents, dimension and index_type. -/
def get_stats (s : StoreState) : Nat × Option Nat × Option String :=
  (s.metadata.length, s.dimension, if s.index.isSome then some "IndexFlatL2" else none)

/-- FAISSVectorStore.clear: reset the in-memory state and delete both
artifact files. -/
def clear_store (s : StoreState) (disk : Disk) : StoreState × Disk :=
  (⟨none, [], none⟩, ⟨none, none⟩)

/-- Number of vectors stored in the faiss index. -/
def storedCount (s : StoreState) : Nat :=
  match s.index with
  | none => 0
  | some p => p.2.length

/-- The parallel-tables invariant: len(vectors) = len(metadata). -/
abbrev storeInv (s : StoreState) : Prop := storedCount s = s.metadata.length

/-- Well-formedness of a complete artifact pair on disk: vector count matches
metadata count (save_index only ever writes such pairs). -/
abbrev diskInv (disk : Disk) : Prop :=
  match disk.indexFile, disk.metadataFile with
  | some p, some md => p.2.length = md.length
  | _, _ => True

/-- Structural well-formedness of a store state, maintained by every
operation: the dimension field mirrors the index's dimension, and a store
without an index is empty. -/
abbrev wfStore (s : StoreState) : Prop :=
  match s.index with
  | some p => s.dimension = some p.1
  | none => s.metadata = [] ∧ s.dimension = none

/-- A store that holds no index has no complete artifact pair on its disk
(maintained by the store's own operations: loading consumes a complete pair,
clear deletes both files). -/
abbrev coldConsistent (s : StoreState) (disk : Disk) : Prop :=
  match s.index with
  | none => disk.indexFile = none ∨ disk.metadataFile = none
  | some _ => True

/-! ## Concrete instances used by the claim theorems -/

/-- Chunker configuration chunk_size 10, chunk_overlap 2, min_chunk_size 5. -/
def c1cfg : Cfg := ⟨10, 2, 5⟩

/-- A plain-text document of a single 3-token sentence: shorter than
min_chunk_size 5. -/
def c1doc : Document := ⟨[], [3]⟩

/-- A plain-text document of a single 6-token sentence. -/
def c1docB : Document := ⟨[], [6]⟩

/-- Chunker configuration chunk_size 10, chunk_overlap 0, min_chunk_size 2. -/
def c4cfg : Cfg := ⟨10, 0, 2⟩

/-- A document with one section of two paragraphs: an 8-token paragraph
followed by an oversized paragraph of three 5-token sentences. -/
def c4doc : Document := ⟨[⟨"H", [[8], [5, 5, 5]]⟩], []⟩

/-- A remote API that fails every call with a non-quota error. -/
def c3oracle : Nat → Outcome := fun _ => Outcome.err

/-- A remote embedding function. -/
def c3remote : Nat → Vec := fun _ => [1]

/-- A local embedding function. -/
def c3local : Nat → Vec := fun _ => [0]

/-- The initial state of a generator constructed with a configured remote
credential: remote preferred, no quota hit, no API calls yet. -/
def c3s0 : EmbState := ⟨true, true, false, 0⟩

/-- A store holding one unit vector with one metadata record. -/
def c2store : StoreState := ⟨some (2, [[1, 0]]), [7], some 2⟩

/-- A store holding one unit vector with one metadata record. -/
def c7store : StoreState := ⟨some (2, [[1, 0]]), [7], some 2⟩

/-- A store with established dimension 2 holding one vector. -/
def c5store : StoreState := ⟨some (2, [[1, 0]]), [7], some 2⟩

/-- A store with one vector and one metadata record. -/
def c6store : StoreState := ⟨some (2, [[1, 0]]), [7], some 2⟩

/-- An empty disk. -/
def emptyDisk : Disk := ⟨none, none⟩

/-- A store with one vector and one metadata record. -/
def c9store : StoreState := ⟨some (2, [[1, 0]]), [7], some 2⟩

/-- A store with one vector and one metadata record. -/
def c10store : StoreState := ⟨some (2, [[1, 0]]), [7], some 2⟩

/-! ## Helper lemmas -/

/-- Every chunk emitted by the sentence loop of _split_large_section has at
least min_chunk_size tokens. -/
theorem sentLoop_min (cfg : Cfg) (heading : String) :
    ∀ (sents cur : List Nat) (curTok : Nat),
      ∀ c ∈ (sentLoop cfg heading sents cur curTok).1, cfg.min_chunk_size ≤ c.tokens := by
  intro sents
  induction sents with
  | nil =>
    intro cur curTok c hc
    simp [sentLoop] at hc
  | cons s rest ih =>
    intro cur curTok c hc
    simp only [sentLoop] at hc
    split at hc
    · exact ih _ _ c hc
    · rcases List.mem_append.mp hc with h | h
      · split at h
        · rename_i hg
          simp only [List.mem_singleton] at h
          subst h
          exact hg.2
        · simp at h
      · exact ih _ _ c h

/-- Every chunk emitted by the paragraph loop of _split_large_section has at
least min_chunk_size tokens. -/
theorem slsGo_min (cfg : Cfg) (heading : String) :
    ∀ (paras : List (List Nat)) (cur : List Nat) (curTok : Nat),
      ∀ c ∈ (slsGo cfg heading paras cur curTok), cfg.min_chunk_size ≤ c.tokens := by
  intro paras
  induction paras with
  | nil =>
    intro cur curTok c hc
    simp only [slsGo] at hc
    split at hc
    · rename_i hg
      simp only [List.mem_singleton] at hc
      subst hc
      exact hg.2
    · simp at hc
  | cons p rest ih =>
    intro cur curTok c hc
    simp only [slsGo] at hc
    split at hc
    · exact ih _ _ c hc
    · split at hc
      · rcases List.mem_append.mp hc with h | h
        · split at h
          · rename_i hg
            rcases List.mem_append.mp h with h2 | h2
            · simp only [List.mem_singleton] at h2
              subst h2
              exact hg.2
            · exact sentLoop_min cfg heading p _ _ c h2
          · exact sentLoop_min cfg heading p _ _ c h
        · exact ih _ _ c h
      · rcases List.mem_append.mp hc with h | h
        · split at h
          · rename_i hg
            simp only [List.mem_singleton] at h
            subst h
            exact hg.2
          · simp at h
        · exact ih _ _ c h

/-- Every chunk emitted by the section loop of split_by_sections has at
least min_chunk_size tokens. -/
theorem sectionsGo_min (cfg : Cfg) :
    ∀ (secs : List DocSection) (cur : List (List (List Nat))) (curTok : Nat)
      (curHead : Option String),
      ∀ c ∈ (sectionsGo cfg secs cur curTok curHead), cfg.min_chunk_size ≤ c.tokens := by
  intro secs
  induction secs with
  | nil =>
    intro cur curTok curHead c hc
    simp only [sectionsGo] at hc
    split at hc
    · rename_i hg
      simp only [List.mem_singleton] at hc
      subst hc
      exact hg.2
    · simp at hc
  | cons sec rest ih =>
    intro cur curTok curHead c hc
    simp only [sectionsGo] at hc
    split at hc
    · exact ih _ _ _ c hc
    · rcases List.mem_append.mp hc with h | h
      · split at h
        · rename_i hg
          simp only [List.mem_singleton] at h
          subst h
          exact hg.2
        · simp at h
      · split at h
        · rcases List.mem_append.mp h with h2 | h2
          · exact slsGo_min cfg sec.heading sec.content _ _ c h2
          · exact ih _ _ _ c h2
        · exact ih _ _ _ c h

/-- Every chunk emitted by the sentence-packing loop of split_by_size has at
least min_chunk_size tokens. -/
theorem sbsGo_min (cfg : Cfg) :
    ∀ (sents cur : List Nat) (curTok : Nat),
      ∀ c ∈ (sbsGo cfg sents cur curTok), cfg.min_chunk_size ≤ c.tokens := by
  intro sents
  induction sents with
  | nil =>
    intro cur curTok c hc
    simp only [sbsGo] at hc
    split at hc
    · rename_i hg
      simp only [List.mem_singleton] at hc
      subst hc
      exact hg.2
    · simp at hc
  | cons s rest ih =>
    intro cur curTok c hc
    simp only [sbsGo] at hc
    split at hc
    · rcases List.mem_append.mp hc with h | h
      · split at h
        · rename_i hg
          simp only [List.mem_singleton] at h
          subst h
          exact hg
        · simp at h
      · exact ih _ _ c h
    · exact ih _ _ c hc

/-- The remote-preferred loop of embed_batch yields one output per input, in
order, each output being the remote or the local embedding of its text. -/
theorem embed_batch_go_spec (oracle : Nat → Outcome) (remoteEmb localEmb : Nat → Vec) :
    ∀ (ts : List Nat) (s : EmbState) (fails : Nat),
      (embed_batch_go oracle remoteEmb localEmb s ts fails).1.length = ts.length ∧
      ∀ (i : Nat) (t : Nat), ts[i]? = some t →
        (embed_batch_go oracle remoteEmb localEmb s ts fails).1[i]? = some (remoteEmb t) ∨
        (embed_batch_go oracle remoteEmb localEmb s ts fails).1[i]? = some (localEmb t) := by
  intro ts
  induction ts with
  | nil =>
    intro s fails
    refine ⟨rfl, ?_⟩
    intro i t h
    simp at h
  | cons t0 rest ih =>
    intro s fails
    simp only [embed_batch_go]
    cases hg : (get_gemini_embedding oracle remoteEmb s t0).1 with
    | some v =>
      simp only [hg]
      have hv : v = remoteEmb t0 := by
        unfold get_gemini_embedding at hg
        split at hg
        · simp at hg
        · split at hg <;> simp_all
      constructor
      · simp [(ih _ 0).1]
      · intro i t h
        cases i with
        | zero =>
          simp only [List.getElem?_cons_zero, Option.some.injEq] at h
          subst h
          left
          simp [hv]
        | succ j =>
          simp only [List.getElem?_cons_succ] at h ⊢
          exact (ih _ 0).2 j t h
    | none =>
      simp only [hg]
      split
      · constructor
        · simp
        · intro i t h
          cases i with
          | zero =>
            simp only [List.getElem?_cons_zero, Option.some.injEq] at h
            subst h
            right
            simp
          | succ j =>
            simp only [List.getElem?_cons_succ] at h ⊢
            right
            simp [h]
      · constructor
        · simp [(ih _ (fails + 1)).1]
        · intro i t h
          cases i with
          | zero =>
            simp only [List.getElem?_cons_zero, Option.some.injEq] at h
            subst h
            right
            simp
          | succ j =>
            simp only [List.getElem?_cons_succ] at h ⊢
            exact (ih _ (fails + 1)).2 j t h

/-! ## Claim theorems -/

/-- C1, counterexample: a document shorter than min_chunk_size does not yield
one sub-minimum chunk.  With chunk_size 10, chunk_overlap 2, min_chunk_size 5,
a plain-text document consisting of one 3-token sentence produces no chunks at
all: the final buffer is dropped by the unconditional minimum-size check, so
the claimed exception for the sole chunk of a short document does not exist. -/
theorem short_document_yields_no_chunk :
    chunk_document c1cfg c1doc = [] ∧ (chunk_document c1cfg c1doc).length ≠ 1 := by
  decide

/-- C1, amended: every chunk produced by chunk_document has token_count at
least min_chunk_size, with no exception; a trailing buffer below
min_chunk_size is always dropped, so a document shorter than min_chunk_size
yields zero chunks. -/
theorem chunk_token_count_ge_min (cfg : Cfg) (doc : Document) (c : Chunk)
    (hc : c ∈ chunk_document cfg doc) : cfg.min_chunk_size ≤ c.tokens := by
  unfold chunk_document at hc
  split at hc
  · unfold split_by_sections at hc
    split at hc
    · unfold split_by_size at hc
      split at hc
      · simp at hc
      · exact sbsGo_min cfg doc.plain [] 0 c hc
    · exact sectionsGo_min cfg doc.sections [] 0 none c hc
  · unfold split_by_size at hc
    split at hc
    · simp at hc
    · exact sbsGo_min cfg doc.plain [] 0 c hc

/-- C1, witness for the amended theorem: the single-sentence 6-token document
produces a chunk, whose token count is at least min_chunk_size 5. -/
theorem chunk_token_count_ge_min_witness :
    (⟨6, ChunkType.fixedSizeChunk, none⟩ : Chunk) ∈ chunk_document c1cfg c1docB ∧
    c1cfg.min_chunk_size ≤ (6 : Nat) :=
  ⟨by decide, chunk_token_count_ge_min c1cfg c1docB ⟨6, ChunkType.fixedSizeChunk, none⟩ (by decide)⟩

/-- C4: the overlap-duplication bound fails.  For the configuration
chunk_size 10, chunk_overlap 0, min_chunk_size 2 and a document with one
section of an 8-token paragraph followed by an oversized paragraph of three
5-token sentences, _split_large_section flushes the 8-token buffer, then
enters its sentence loop without resetting current_chunk (its own comment
says it starts a new chunk) and flushes the same buffer a second time: the
chunks have token counts [8, 8, 10, 5], summing to 31, while the document
has 23 tokens and the bound with chunk_overlap 0 and 4 chunks is 23. -/
theorem chunk_token_sum_exceeds_overlap_bound :
    (chunk_document c4cfg c4doc).map Chunk.tokens = [8, 8, 10, 5] ∧
    docTokens c4doc = 23 ∧
    docTokens c4doc + c4cfg.chunk_overlap * ((chunk_document c4cfg c4doc).length - 1) <
      sumChunkTokens (chunk_document c4cfg c4doc) := by
  decide

/-- C3, counterexample: degradation after three consecutive non-quota remote
failures is not permanent.  With a remote API failing every call with a
non-quota error, an embed_batch of four texts makes exactly three remote
attempts and routes the rest of the batch locally, but the instance state
keeps gemini_quota_exceeded false and use_gemini true, and the next
embed_text call performs a fourth remote attempt. -/
theorem nonquota_degradation_not_permanent :
    (embed_batch c3oracle c3remote c3local c3s0 [0, 1, 2, 3]).2.apiCalls = 3 ∧
    (embed_batch c3oracle c3remote c3local c3s0 [0, 1, 2, 3]).2.gemini_quota_exceeded = false ∧
    (embed_batch c3oracle c3remote c3local c3s0 [0, 1, 2, 3]).2.use_gemini = true ∧
    (embed_text c3oracle c3remote c3local
      (embed_batch c3oracle c3remote c3local c3s0 [0, 1, 2, 3]).2 4).2.apiCalls = 4 := by
  decide

/-- C3, amended: only a quota/rate-limit remote failure degrades the instance
permanently.  Once gemini_quota_exceeded is set, every subsequent embed_text
and embed_batch call leaves the instance state unchanged — in particular no
further remote API call is ever attempted and the degradation is
one-directional.  Three consecutive non-quota failures merely route the
remainder of the current batch to the local provider, without persisting
(shown by the counterexample). -/
theorem quota_degradation_is_permanent (oracle : Nat → Outcome)
    (remoteEmb localEmb : Nat → Vec) (s : EmbState) (t : Nat) (ts : List Nat)
    (h : s.gemini_quota_exceeded = true) :
    (embed_text oracle remoteEmb localEmb s t).2 = s ∧
    (embed_batch oracle remoteEmb localEmb s ts).2 = s := by
  constructor
  · unfold embed_text
    split
    · unfold get_gemini_embedding
      simp [h]
    · rfl
  · unfold embed_batch
    simp only [h]
    split
    · rfl
    · simp

/-- C3, witness for the amended theorem: a degraded instance state is left
exactly unchanged by a subsequent embed_text and embed_batch. -/
theorem quota_degradation_is_permanent_witness :
    (embed_text c3oracle c3remote c3local ⟨false, true, true, 5⟩ 0).2 = ⟨false, true, true, 5⟩ ∧
    (embed_batch c3oracle c3remote c3local ⟨false, true, true, 5⟩ [1, 2]).2 = ⟨false, true, true, 5⟩ :=
  quota_degradation_is_permanent c3oracle c3remote c3local ⟨false, true, true, 5⟩ 0 [1, 2] rfl

/-- C8: embed_batch returns exactly one vector per input text, in order: the
i-th output is the remote or the local embedding of the i-th input,
whichever provider served it; the empty input yields the empty output. -/
theorem embed_batch_order_and_length (oracle : Nat → Outcome)
    (remoteEmb localEmb : Nat → Vec) (s : EmbState) (ts : List Nat) :
    (embed_batch oracle remoteEmb localEmb s ts).1.length = ts.length ∧
    ∀ (i : Nat) (t : Nat), ts[i]? = some t →
      (embed_batch oracle remoteEmb localEmb s ts).1[i]? = some (remoteEmb t) ∨
      (embed_batch oracle remoteEmb localEmb s ts).1[i]? = some (localEmb t) := by
  unfold embed_batch
  split
  · rename_i he
    subst he
    refine ⟨rfl, ?_⟩
    intro i t h
    simp at h
  · split
    · exact embed_batch_go_spec oracle remoteEmb localEmb ts s 0
    · refine ⟨by simp, ?_⟩
      intro i t h
      right
      simp [h]

/-- C8, witness: a two-text batch against an always-succeeding remote API
returns two vectors, the first being an embedding of the first text. -/
theorem embed_batch_order_and_length_witness :
    (embed_batch (fun _ => Outcome.ok) (fun t => [(t : ℚ)]) (fun t => [(t : ℚ), t])
        ⟨true, true, false, 0⟩ [10, 11]).1.length = 2 ∧
    ((embed_batch (fun _ => Outcome.ok) (fun t => [(t : ℚ)]) (fun t => [(t : ℚ), t])
        ⟨true, true, false, 0⟩ [10, 11]).1[0]? = some [(10 : ℚ)] ∨
     (embed_batch (fun _ => Outcome.ok) (fun t => [(t : ℚ)]) (fun t => [(t : ℚ), t])
        ⟨true, true, false, 0⟩ [10, 11]).1[0]? = some [(10 : ℚ), 10]) :=
  ⟨(embed_batch_order_and_length (fun _ => Outcome.ok) (fun t => [(t : ℚ)])
      (fun t => [(t : ℚ), t]) ⟨true, true, false, 0⟩ [10, 11]).1,
   (embed_batch_order_and_length (fun _ => Outcome.ok) (fun t => [(t : ℚ)])
      (fun t => [(t : ℚ), t]) ⟨true, true, false, 0⟩ [10, 11]).2 0 10 rfl⟩

/-- Normalizing the unit vector with components 0, 1 leaves it unchanged. -/
theorem normalize_L2_unit01 : normalize_L2 [0, 1] = [0, 1] := by
  have hd : dot [0, 1] [0, 1] = 1 := by simp [dot]
  have hsq : ratSqrt 1 = some 1 := by
    unfold ratSqrt
    norm_num
  rw [normalize_L2, hd, hsq]
  norm_num

/-- Squared L2 distance between the two unit basis vectors of the plane. -/
theorem sqDist_e1_e2 : sqDist [1, 0] [0, 1] = 2 := by
  simp [sqDist]
  norm_num

/-- C2: search does not return min(k, number of stored vectors) results when
k exceeds the stored count.  On a store with one stored unit vector and one
metadata record, search of a unit query with k = 5 returns five results, not
one: the faiss padding entries (distance FLT_MAX, index -1) pass the guard
idx < len(metadata), and Python indexing maps -1 to the last metadata record,
so four spurious copies of record 7 with similarity 1 - FLT_MAX/2 are
reported alongside the one genuine result. -/
theorem search_k_exceeding_count_returns_padding :
    (search 5 c2store [0, 1] 5).1 =
      [(7, 0), (7, 1 - fltMax / 2), (7, 1 - fltMax / 2), (7, 1 - fltMax / 2),
        (7, 1 - fltMax / 2)] ∧
    (search 5 c2store [0, 1] 5).1.length = 5 := by
  have h : (search 5 c2store [0, 1] 5).1 =
      [(7, 0), (7, 1 - fltMax / 2), (7, 1 - fltMax / 2), (7, 1 - fltMax / 2),
        (7, 1 - fltMax / 2)] := by
    rw [c2store, search]
    simp only [normalize_L2_unit01]
    simp [faiss_knn, insertByDist, List.enum, pyGet, sqDist_e1_e2]
  exact ⟨h, by rw [h]; rfl⟩

/-- C5: a dimension-mismatching add_documents call on a store whose dimension
is established raises the mismatch error to the caller and leaves the store's
index, metadata and dimension exactly as they were. -/
theorem add_dimension_mismatch_leaves_state_unchanged
    (s : StoreState) (embs : List Vec) (docs : List Nat) (d : Nat) (vs : List Vec)
    (hidx : s.index = some (d, vs)) (hdim : s.dimension.isSome)
    (hlen : embs.length = docs.length) (hne : embs ≠ [])
    (hmis : s.dimension ≠ some (embs.headD []).length) :
    (add_documents s embs docs).error.isSome ∧ (add_documents s embs docs).state = s := by
  unfold add_documents
  rw [if_neg (by omega), if_neg (by simp [hne]), hidx]
  simp only [if_pos hmis]
  constructor <;> trivial

/-- C5, witness: adding a width-3 vector to a store of established dimension
2 errors and leaves the store unchanged. -/
theorem add_dimension_mismatch_leaves_state_unchanged_witness :
    (add_documents c5store [[1, 2, 3]] [9]).error.isSome ∧
    (add_documents c5store [[1, 2, 3]] [9]).state = c5store :=
  add_dimension_mismatch_leaves_state_unchanged c5store [[1, 2, 3]] [9] 2 [[1, 0]]
    rfl rfl rfl (by decide) (by decide)

/-- C6: the parallel-tables invariant len(vectors) = len(metadata) holds
after construction (a load of a well-formed artifact pair, or a cold start)
and is preserved by every operation: add_documents in all of its branches
(length-mismatch error, zero-vector no-op, index creation, dimension
mismatch, successful append), save_index (which also writes only well-formed
artifact pairs), and clear.  search assigns no store field, so it preserves
every state property trivially. -/
theorem vector_metadata_length_invariant
    (disk d2 : Disk) (s : StoreState) (embs : List Vec) (docs : List Nat)
    (hdisk : diskInv disk) (hd2 : diskInv d2) (hs : storeInv s) :
    storeInv (load_index disk) ∧
    storeInv (add_documents s embs docs).state ∧
    (storeInv (save_index s d2).1 ∧ diskInv (save_index s d2).2) ∧
    (storeInv (clear_store s d2).1 ∧ diskInv (clear_store s d2).2) := by
  refine ⟨?_, ?_, ⟨?_, ?_⟩, ⟨rfl, trivial⟩⟩
  · obtain ⟨f1, f2⟩ := disk
    unfold load_index
    cases f1 with
    | none => cases f2 <;> rfl
    | some p =>
      cases f2 with
      | none => rfl
      | some md =>
        obtain ⟨pd, pvs⟩ := p
        simpa [storeInv, storedCount] using hdisk
  · unfold add_documents
    split
    · exact hs
    · split
      · exact hs
      · rename_i hlen hnz
        cases hidx : s.index with
        | none =>
          simp only [hidx]
          simp only [storeInv, storedCount, hidx] at hs ⊢
          simp [List.length_append, ← hs]
          omega
        | some p =>
          obtain ⟨pd, pvs⟩ := p
          simp only [hidx]
          split
          · exact hs
          · simp only [storeInv, storedCount, hidx] at hs ⊢
            simp [List.length_append, hs]
            omega
  · unfold save_index
    cases s.index <;> exact hs
  · unfold save_index
    cases hidx : s.index with
    | none => exact hd2
    | some p =>
      simp only [storeInv, storedCount, hidx] at hs
      simpa [diskInv] using hs

/-- C6, witness: the invariant facts instantiated at a one-entry store and
empty disks. -/
theorem vector_metadata_length_invariant_witness :
    storeInv (load_index emptyDisk) ∧
    storeInv (add_documents c6store [[1, 0]] [8]).state ∧
    (storeInv (save_index c6store emptyDisk).1 ∧ diskInv (save_index c6store emptyDisk).2) ∧
    (storeInv (clear_store c6store emptyDisk).1 ∧ diskInv (clear_store c6store emptyDisk).2) :=
  vector_metadata_length_invariant emptyDisk emptyDisk c6store [[1, 0]] [8]
    trivial trivial rfl

/-- Normalizing the unit vector with components 1, 0 leaves it unchanged. -/
theorem normalize_L2_unit10 : normalize_L2 [1, 0] = [1, 0] := by
  have hd : dot [1, 0] [1, 0] = 1 := by simp [dot]
  have hsq : ratSqrt 1 = some 1 := by
    unfold ratSqrt
    norm_num
  rw [normalize_L2, hd, hsq]
  norm_num

/-- Squared L2 distance of a unit vector to itself. -/
theorem sqDist_self_e1 : sqDist [1, 0] [1, 0] = 0 := by
  simp [sqDist]

/-- C7: the reported similarity is not always within the bound.  On a store
with one stored unit vector, a query identical to it with k = 2 yields the
genuine pair with similarity exactly 1 = 1 - 0/2 (the claimed 1 - d^2/2
conversion with d = 0), but the faiss padding entry yields a second reported
similarity 1 - FLT_MAX/2, far below -1, so the claim that every reported
similarity lies in the interval from -1 to 1 fails whenever k exceeds the
number of stored vectors. -/
theorem search_padding_similarity_below_range :
    (search 5 c7store [1, 0] 2).1 = [(7, 1), (7, 1 - fltMax / 2)] ∧
    (1 - fltMax / 2 : ℚ) < -1 := by
  constructor
  · rw [c7store, search]
    simp only [normalize_L2_unit10]
    simp [faiss_knn, insertByDist, List.enum, pyGet, sqDist_self_e1]
  · rw [fltMax]
    norm_num

/-- C9: save_index followed by loading a store from the same path reproduces
the same get_stats output (num_documents, dimension and index type) and the
same search results for every probe query and k, given the structural state
invariants the store's operations maintain: the dimension field mirrors the
index dimension, an index-less store is empty, and an index-less store has no
complete artifact pair on its disk. -/
theorem save_then_load_preserves_observables (s : StoreState) (disk : Disk)
    (hwf : wfStore s) (hcold : coldConsistent s disk) :
    get_stats (load_index (save_index s disk).2) = get_stats s ∧
    ∀ (dk k : Nat) (q : Vec),
      search dk (load_index (save_index s disk).2) q k = search dk s q k := by
  have hstate : load_index (save_index s disk).2 = s := by
    obtain ⟨si, md, sd⟩ := s
    cases si with
    | none =>
      obtain ⟨hm, hd⟩ := hwf
      subst hm
      subst hd
      unfold save_index
      rcases hcold with h | h
      · unfold load_index
        rw [h]
      · unfold load_index
        rw [h]
        cases disk.indexFile <;> rfl
    | some p =>
      obtain ⟨pd, pvs⟩ := p
      have hd : sd = some pd := hwf
      subst hd
      rfl
  rw [hstate]
  exact ⟨rfl, fun dk k q => rfl⟩

/-- C9, witness: round-trip at a one-entry store over an empty disk. -/
theorem save_then_load_preserves_observables_witness :
    get_stats (load_index (save_index c9store emptyDisk).2) = get_stats c9store ∧
    search 5 (load_index (save_index c9store emptyDisk).2) [0, 1] 1 =
      search 5 c9store [0, 1] 1 := by
  have h := save_then_load_preserves_observables c9store emptyDisk rfl trivial
  exact ⟨h.1, h.2 5 1 [0, 1]⟩

/-- C10: add_documents and search hand the normalized vectors back through
the caller's arrays.  Once an add_documents call passes the length check and
the nonempty check, the caller's embeddings array afterwards holds the
L2-normalized rows (this happens even when the call then fails with a
dimension mismatch, since normalization precedes the check); a search call on
a nonempty index leaves the caller's query holding the normalized query.  The
1-D query reaches the same in-place normalization through a reshaped view. -/
theorem add_and_search_normalize_inputs_in_place
    (dk k : Nat) (s : StoreState) (embs : List Vec) (docs : List Nat) (q : Vec)
    (hlen : embs.length = docs.length) (hne : embs ≠ [])
    (hidx : s.index ≠ none) (hmd : s.metadata ≠ []) :
    (add_documents s embs docs).arr = embs.map normalize_L2 ∧
    (search dk s q k).2 = normalize_L2 q := by
  constructor
  · unfold add_documents
    rw [if_neg (by omega), if_neg (by simp [hne])]
    split
    · rfl
    · dsimp only
      split <;> rfl
  · unfold search
    rw [if_neg (by simp [hidx, hmd])]

/-- Normalizing the vector with components 3, 4 scales it by its norm 5. -/
theorem normalize_L2_34 : normalize_L2 [3, 4] = [3 / 5, 4 / 5] := by
  have hd : dot [3, 4] [3, 4] = 25 := by
    simp [dot]
    norm_num
  have h25 : (25 : ℚ).num.toNat = 25 := by
    have hn : (25 : ℚ).num = 25 := by norm_num
    rw [hn]
    rfl
  have hsq : ratSqrt 25 = some 5 := by
    unfold ratSqrt
    rw [if_neg (by norm_num)]
    rw [h25]
    have h5 : Nat.sqrt 25 = 5 := by
      have h : (25 : ℕ) = 5 * 5 := by norm_num
      rw [h, Nat.sqrt_eq]
    have hden : (25 : ℚ).den = 1 := by norm_num
    rw [hden, h5]
    norm_num
  rw [normalize_L2, hd, hsq]
  norm_num

/-- C10, witness: adding the non-normalized vector with components 3, 4 and
searching with it leave the caller's arrays holding the scaled components
3/5, 4/5 instead of the values passed in. -/
theorem add_and_search_normalize_inputs_in_place_witness :
    (add_documents c10store [[3, 4]] [9]).arr = [[3 / 5, 4 / 5]] ∧
    (search 5 c10store [3, 4] 1).2 = [3 / 5, 4 / 5] := by
  have h := add_and_search_normalize_inputs_in_place 5 1 c10store [[3, 4]] [9] [3, 4]
    rfl (by decide) (by decide) (by decide)
  refine ⟨?_, ?_⟩
  · rw [h.1]
    simp [normalize_L2_34]
  · rw [h.2, normalize_L2_34]
